import Mathlib

/-!
Verification of the request-handling pipeline of the S3-to-R2 lazy
migration worker.  The definitions below are a shallow embedding of the
TypeScript source: strings are modelled as Lean strings (lists of
characters standing for UTF-16 code units), the regular-expression
passes of the sanitizer are modelled as explicit recursive functions,
the external stores (R2, the S3 origin, the usage KV namespace, the
edge cache) are modelled as explicit state passed into the handler, and
the effectful handler is modelled as a pure function returning the HTTP
response together with a record of the effects it performed.
-/

namespace S3R2

/-! ## Character classes used by the sanitizer regexes

Code points are written numerically: 37 is the percent sign, 46 the
dot, 47 the slash; the allowed class of the final pass is
a-z (97-122), A-Z (65-90), 0-9 (48-57), underscore (95), hyphen (45),
dot (46), slash (47).
-/

/-- Character class of the regex ranges x00-x1F and x7F-xFF: control
characters and high (non-ASCII) code units. -/
def isControlOrHigh (c : Char) : Bool :=
  c.toNat ≤ 31 || (127 ≤ c.toNat && c.toNat ≤ 255)

/-- Character class 0-9A-Fa-f of the percent-encoding regex. -/
def isHexDigitChar (c : Char) : Bool :=
  (48 ≤ c.toNat && c.toNat ≤ 57) || (65 ≤ c.toNat && c.toNat ≤ 70) ||
    (97 ≤ c.toNat && c.toNat ≤ 102)

/-- The two characters after a percent sign match the pattern
[0-1][0-9A-Fa-f] of the control-byte percent-encoding regex. -/
def isPctPair (d1 d2 : Char) : Bool :=
  (d1 = '0' || d1 = '1') && isHexDigitChar d2

/-- Character class a-zA-Z0-9_-./ kept by the final whitelist pass. -/
def isAllowedChar (c : Char) : Bool :=
  (97 ≤ c.toNat && c.toNat ≤ 122) || (65 ≤ c.toNat && c.toNat ≤ 90) ||
    (48 ≤ c.toNat && c.toNat ≤ 57) || c.toNat = 95 || c.toNat = 45 ||
    c.toNat = 46 || c.toNat = 47

/-! ## The five passes of sanitizePath -/

/-- Pass (a): remove every control or high code unit
(replace of x00-x1F, x7F-xFF with the empty string). -/
def stripControl (l : List Char) : List Char :=
  l.filter (fun c => !(isControlOrHigh c))

/-- Pass (b): remove every non-overlapping occurrence of the pattern
percent [0-1] [0-9A-Fa-f], scanning left to right. -/
def stripPctControl : List Char → List Char
  | [] => []
  | [c] => [c]
  | [c, d] => [c, d]
  | c :: d1 :: d2 :: rest =>
    if c = '%' && isPctPair d1 d2 then stripPctControl rest
    else c :: stripPctControl (d1 :: d2 :: rest)

/-- Pass (c), worker: collapse runs of slashes; the flag records whether
the previously emitted character was a slash. -/
def collapseAux : Bool → List Char → List Char
  | _, [] => []
  | prevSlash, c :: rest =>
    if c = '/' then
      if prevSlash then collapseAux true rest
      else '/' :: collapseAux true rest
    else c :: collapseAux false rest

/-- Pass (c): normalize multiple slashes to a single slash. -/
def collapseSlashes (l : List Char) : List Char :=
  collapseAux false l

/-- Split on the slash character, with the semantics of the string
split method: the empty list of characters splits into one empty
segment, and separators at the ends produce empty segments. -/
def splitSlash : List Char → List (List Char)
  | [] => [[]]
  | c :: rest =>
    if c = '/' then [] :: splitSlash rest
    else
      match splitSlash rest with
      | [] => [[c]]
      | s :: ss => (c :: s) :: ss

/-- A segment survives pass (d) when it is neither a single dot nor a
double dot. -/
def segOk (s : List Char) : Bool :=
  !(s = ['.', '.']) && !(s = ['.'])

/-- Join segments with single slashes (the join method). -/
def joinSlash : List (List Char) → List Char
  | [] => []
  | [s] => s
  | s :: rest => s ++ '/' :: joinSlash rest

/-- Pass (d): split on slash, drop dot and double-dot segments,
rejoin. -/
def dropDotSegments (l : List Char) : List Char :=
  joinSlash ((splitSlash l).filter segOk)

/-- Pass (e): keep only the whitelisted characters. -/
def keepAllowed (l : List Char) : List Char :=
  l.filter isAllowedChar

/-- The sanitizer on character lists: passes (a) to (e) in order. -/
def sanitizeList (l : List Char) : List Char :=
  keepAllowed (dropDotSegments (collapseSlashes (stripPctControl (stripControl l))))

/-- sanitizePath from the source: the five replace/split/join passes. -/
def sanitizePath (p : String) : String :=
  ⟨sanitizeList p.data⟩

/-! ## The post-sanitization validation patterns -/

/-- Does the pattern percent [0-1] [0-9A-Fa-f] occur anywhere in the
list (the test of the second validation regex)? -/
def hasPctControl : List Char → Bool
  | [] => false
  | [_] => false
  | [_, _] => false
  | c :: d1 :: d2 :: rest =>
    (c = '%' && isPctPair d1 d2) || hasPctControl (d1 :: d2 :: rest)

/-- The blocking test applied by the handler after sanitization: a
control or high code unit anywhere, or a percent-encoded control
pattern anywhere. -/
def blockedPattern (s : String) : Bool :=
  s.data.any isControlOrHigh || hasPctControl s.data

/-! ## Basic properties of the sanitizer passes -/

theorem mem_keepAllowed {c : Char} {l : List Char} (h : c ∈ keepAllowed l) :
    isAllowedChar c = true :=
  (List.mem_filter.mp h).2

theorem sanitizeList_allowed {c : Char} {l : List Char}
    (h : c ∈ sanitizeList l) : isAllowedChar c = true :=
  mem_keepAllowed h

theorem sanitizePath_allowed {c : Char} {p : String}
    (h : c ∈ (sanitizePath p).data) : isAllowedChar c = true :=
  sanitizeList_allowed h

/-- An allowed character is not a control or high code unit. -/
theorem not_controlOrHigh_of_allowed {c : Char}
    (h : isAllowedChar c = true) : isControlOrHigh c = false := by
  simp only [isAllowedChar, Bool.or_eq_true, Bool.and_eq_true,
    decide_eq_true_eq] at h
  simp only [isControlOrHigh, Bool.or_eq_true, Bool.and_eq_true,
    decide_eq_true_eq, Bool.or_eq_false_iff, Bool.and_eq_false_iff,
    decide_eq_false_iff_not, not_le]
  omega

/-- An allowed character is not the percent sign. -/
theorem ne_pct_of_allowed {c : Char} (h : isAllowedChar c = true) :
    c ≠ '%' := by
  intro he
  rw [he] at h
  exact absurd h (by decide)

/-- The percent-control pattern needs a percent sign. -/
theorem pct_mem_of_hasPctControl :
    ∀ {l : List Char}, hasPctControl l = true → '%' ∈ l := by
  intro l
  induction l with
  | nil => intro h; exact absurd h (by simp [hasPctControl])
  | cons c rest ih =>
    intro h
    match rest, ih with
    | [], _ => exact absurd h (by simp [hasPctControl])
    | [d], _ => exact absurd h (by simp [hasPctControl])
    | d1 :: d2 :: r, ih =>
      rw [hasPctControl, Bool.or_eq_true] at h
      rcases h with h | h
      · rw [Bool.and_eq_true, decide_eq_true_eq] at h
        exact h.1 ▸ List.mem_cons_self _ _
      · exact List.mem_cons_of_mem _ (ih h)

/-- The post-sanitization validation of the handler can never fire:
the sanitizer output contains only whitelisted characters, hence no
control or high code unit and no percent sign. -/
theorem blockedPattern_sanitizePath (p : String) :
    blockedPattern (sanitizePath p) = false := by
  rw [blockedPattern, Bool.or_eq_false_iff]
  constructor
  · rw [List.any_eq_false]
    intro c hc
    simp only [not_controlOrHigh_of_allowed (sanitizePath_allowed hc),
      Bool.false_eq_true, not_false_eq_true]
  · by_contra h
    rw [Bool.not_eq_false] at h
    exact ne_pct_of_allowed
      (sanitizePath_allowed (pct_mem_of_hasPctControl h)) rfl

/-! ## Shape invariants used in the fixed-point analysis -/

/-- Does the list start with a slash? -/
def headIsSlash : List Char → Bool
  | [] => false
  | c :: _ => c = '/'

/-- No two adjacent slashes anywhere in the list. -/
def noDD : List Char → Bool
  | [] => true
  | [_] => true
  | c :: d :: rest => !(c = '/' && d = '/') && noDD (d :: rest)

theorem noDD_cons (a : Char) (l : List Char) :
    noDD (a :: l) = (!(a = '/' && headIsSlash l) && noDD l) := by
  cases l <;> simp [noDD, headIsSlash]

/-- Every element except possibly the last is a nonempty segment. -/
def tailOk : List (List Char) → Bool
  | [] => true
  | [_] => true
  | s :: rest => !s.isEmpty && tailOk rest

/-- Every element except possibly the first and the last is a nonempty
segment. -/
def innerOk : List (List Char) → Bool
  | [] => true
  | _ :: rest => tailOk rest

theorem tailOk_cons (s : List Char) (rest : List (List Char)) :
    tailOk (s :: rest) = (rest = [] || (!s.isEmpty && tailOk rest)) := by
  cases rest <;> simp [tailOk]

/-! ## Slash collapsing -/

theorem headIsSlash_collapseAux_true (l : List Char) :
    headIsSlash (collapseAux true l) = false := by
  induction l with
  | nil => rfl
  | cons c rest ih =>
    simp only [collapseAux]
    by_cases hc : c = '/'
    · rw [if_pos hc]
      simpa using ih
    · rw [if_neg hc]
      simp [headIsSlash, hc]

theorem noDD_collapseAux (l : List Char) :
    ∀ prev, noDD (collapseAux prev l) = true := by
  induction l with
  | nil => intro prev; rfl
  | cons c rest ih =>
    intro prev
    simp only [collapseAux]
    by_cases hc : c = '/'
    · rw [if_pos hc]
      cases prev with
      | true =>
        simpa using ih true
      | false =>
        simp only [if_true, if_false, ite_true, ite_false, Bool.false_eq_true]
        rw [noDD_cons, headIsSlash_collapseAux_true, ih true]
        simp
    · rw [if_neg hc, noDD_cons, ih false]
      simp [hc]

theorem collapseAux_eq_self :
    ∀ (l : List Char) (prev : Bool), noDD l = true →
      (prev = true → headIsSlash l = false) → collapseAux prev l = l := by
  intro l
  induction l with
  | nil => intro prev _ _; rfl
  | cons c rest ih =>
    intro prev hdd hprev
    simp only [collapseAux]
    by_cases hc : c = '/'
    · have hp : prev = false := by
        cases prev with
        | false => rfl
        | true => exact absurd (hprev rfl) (by simp [headIsSlash, hc])
      subst hp
      rw [if_pos hc]
      simp only [if_true, if_false, ite_true, ite_false, Bool.false_eq_true]
      rw [noDD_cons, Bool.and_eq_true] at hdd
      have hhead : headIsSlash rest = false := by
        rcases hdd with ⟨h1, _⟩
        simpa [hc] using h1
      rw [ih true hdd.2 (fun _ => hhead), hc]
    · rw [if_neg hc]
      rw [noDD_cons, Bool.and_eq_true] at hdd
      rw [ih false hdd.2 (by intro h; exact absurd h (by simp))]

theorem collapseSlashes_eq_self {l : List Char} (h : noDD l = true) :
    collapseSlashes l = l :=
  collapseAux_eq_self l false h (by intro h; exact absurd h (by simp))

theorem mem_collapseAux {c : Char} :
    ∀ {l : List Char} {prev : Bool}, c ∈ collapseAux prev l → c ∈ l := by
  intro l
  induction l with
  | nil => intro prev h; exact absurd h (by simp [collapseAux])
  | cons a rest ih =>
    intro prev h
    simp only [collapseAux] at h
    by_cases ha : a = '/'
    · rw [if_pos ha] at h
      cases prev with
      | true =>
        simp only [if_true, if_false, ite_true, ite_false] at h
        exact List.mem_cons_of_mem _ (ih h)
      | false =>
        simp only [if_true, if_false, ite_true, ite_false, Bool.false_eq_true] at h
        rcases List.mem_cons.mp h with h | h
        · simp [ha, h]
        · exact List.mem_cons_of_mem _ (ih h)
    · rw [if_neg ha] at h
      rcases List.mem_cons.mp h with h | h
      · simp [h]
      · exact List.mem_cons_of_mem _ (ih h)

/-! ## Splitting and joining on slashes -/

theorem splitSlash_ne_nil (l : List Char) : splitSlash l ≠ [] := by
  cases l with
  | nil => simp [splitSlash]
  | cons c rest =>
    rw [splitSlash]
    by_cases hc : c = '/'
    · rw [if_pos hc]
      simp
    · rw [if_neg hc]
      cases splitSlash rest <;> simp

theorem joinSlash_cons_cons (s s2 : List Char) (ss : List (List Char)) :
    joinSlash (s :: s2 :: ss) = s ++ '/' :: joinSlash (s2 :: ss) := by
  rfl

theorem joinSlash_splitSlash (l : List Char) :
    joinSlash (splitSlash l) = l := by
  induction l with
  | nil => rfl
  | cons c rest ih =>
    rw [splitSlash]
    by_cases hc : c = '/'
    · rw [if_pos hc]
      obtain ⟨s, ss, hss⟩ : ∃ s ss, splitSlash rest = s :: ss := by
        cases h : splitSlash rest with
        | nil => exact absurd h (splitSlash_ne_nil rest)
        | cons s ss => exact ⟨s, ss, rfl⟩
      rw [hss, joinSlash_cons_cons, List.nil_append, ← hss, ih, hc]
    · rw [if_neg hc]
      cases h : splitSlash rest with
      | nil => exact absurd h (splitSlash_ne_nil rest)
      | cons s ss =>
        rw [h] at ih
        cases ss with
        | nil =>
          show c :: s = c :: rest
          rw [show joinSlash [s] = s from rfl] at ih
          rw [ih]
        | cons s2 ss2 =>
          rw [joinSlash_cons_cons, List.cons_append, ← joinSlash_cons_cons, ih]

theorem splitSlash_of_noSlash {s : List Char} (h : '/' ∉ s) :
    splitSlash s = [s] := by
  induction s with
  | nil => rfl
  | cons c rest ih =>
    have hc : c ≠ '/' := fun he => h (he ▸ List.mem_cons_self _ _)
    rw [splitSlash, if_neg hc, ih (fun hm => h (List.mem_cons_of_mem _ hm))]

theorem splitSlash_append {s0 : List Char} (h : '/' ∉ s0) (t : List Char) :
    splitSlash (s0 ++ '/' :: t) = s0 :: splitSlash t := by
  induction s0 with
  | nil =>
    rw [List.nil_append, splitSlash, if_pos rfl]
  | cons c rest ih =>
    have hc : c ≠ '/' := fun he => h (he ▸ List.mem_cons_self _ _)
    rw [List.cons_append, splitSlash, if_neg hc,
      ih (fun hm => h (List.mem_cons_of_mem _ hm))]

theorem splitSlash_joinSlash :
    ∀ ss : List (List Char), ss ≠ [] → (∀ s ∈ ss, '/' ∉ s) →
      splitSlash (joinSlash ss) = ss := by
  intro ss
  induction ss with
  | nil => intro h _; exact absurd rfl h
  | cons s rest ih =>
    intro _ hns
    cases rest with
    | nil =>
      show splitSlash s = [s]
      exact splitSlash_of_noSlash (hns s (List.mem_cons_self _ _))
    | cons s2 ss2 =>
      rw [joinSlash_cons_cons,
        splitSlash_append (hns s (List.mem_cons_self _ _)),
        ih (by simp) (fun x hx => hns x (List.mem_cons_of_mem _ hx))]

theorem mem_splitSlash {c : Char} :
    ∀ {l : List Char} {s : List Char}, s ∈ splitSlash l → c ∈ s → c ∈ l := by
  intro l
  induction l with
  | nil =>
    intro s hs hc
    rw [splitSlash] at hs
    rcases List.mem_singleton.mp hs with rfl
    exact absurd hc (by simp)
  | cons a rest ih =>
    intro s hs hc
    rw [splitSlash] at hs
    by_cases ha : a = '/'
    · rw [if_pos ha] at hs
      rcases List.mem_cons.mp hs with rfl | hs
      · exact absurd hc (by simp)
      · exact List.mem_cons_of_mem _ (ih hs hc)
    · rw [if_neg ha] at hs
      cases h : splitSlash rest with
      | nil => exact absurd h (splitSlash_ne_nil rest)
      | cons s1 ss1 =>
        rw [h] at hs
        rcases List.mem_cons.mp hs with rfl | hs
        · rcases List.mem_cons.mp hc with rfl | hc
          · exact List.mem_cons_self _ _
          · exact List.mem_cons_of_mem _ (ih (h ▸ List.mem_cons_self _ _) hc)
        · exact List.mem_cons_of_mem _ (ih (h ▸ List.mem_cons_of_mem _ hs) hc)

theorem noSlash_of_mem_splitSlash :
    ∀ {l : List Char} {s : List Char}, s ∈ splitSlash l → '/' ∉ s := by
  intro l
  induction l with
  | nil =>
    intro s hs
    rw [splitSlash] at hs
    rcases List.mem_singleton.mp hs with rfl
    simp
  | cons a rest ih =>
    intro s hs
    rw [splitSlash] at hs
    by_cases ha : a = '/'
    · rw [if_pos ha] at hs
      rcases List.mem_cons.mp hs with rfl | hs
      · simp
      · exact ih hs
    · rw [if_neg ha] at hs
      cases h : splitSlash rest with
      | nil => exact absurd h (splitSlash_ne_nil rest)
      | cons s1 ss1 =>
        rw [h] at hs
        rcases List.mem_cons.mp hs with rfl | hs
        · intro hmem
          rcases List.mem_cons.mp hmem with he | hmem
          · exact ha he.symm
          · exact ih (h ▸ List.mem_cons_self _ _) hmem
        · exact ih (h ▸ List.mem_cons_of_mem _ hs)

theorem mem_joinSlash {c : Char} :
    ∀ {ss : List (List Char)}, c ∈ joinSlash ss →
      (∃ s ∈ ss, c ∈ s) ∨ c = '/' := by
  intro ss
  induction ss with
  | nil => intro h; exact absurd h (by simp [joinSlash])
  | cons s rest ih =>
    intro h
    cases rest with
    | nil =>
      exact Or.inl ⟨s, List.mem_cons_self _ _, h⟩
    | cons s2 ss2 =>
      rw [joinSlash_cons_cons] at h
      rcases List.mem_append.mp h with h | h
      · exact Or.inl ⟨s, List.mem_cons_self _ _, h⟩
      · rcases List.mem_cons.mp h with rfl | h
        · exact Or.inr rfl
        · rcases ih h with ⟨t, ht, hct⟩ | he
          · exact Or.inl ⟨t, List.mem_cons_of_mem _ ht, hct⟩
          · exact Or.inr he

/-! ## Shape of the segment list of a slash-collapsed string -/

theorem noDD_tail {c : Char} {l : List Char} (h : noDD (c :: l) = true) :
    noDD l = true := by
  rw [noDD_cons, Bool.and_eq_true] at h
  exact h.2

theorem splitSlash_shape :
    ∀ l : List Char, noDD l = true →
      innerOk (splitSlash l) = true ∧
        (headIsSlash l = false → tailOk (splitSlash l) = true) := by
  intro l
  induction l with
  | nil => exact fun _ => ⟨rfl, fun _ => rfl⟩
  | cons c rest ih =>
    intro hdd
    have ihr := ih (noDD_tail hdd)
    rw [splitSlash]
    by_cases hc : c = '/'
    · rw [if_pos hc]
      have hrest : headIsSlash rest = false := by
        rw [noDD_cons, Bool.and_eq_true] at hdd
        have := hdd.1
        simpa [hc] using this
      have htail : tailOk (splitSlash rest) = true := ihr.2 hrest
      refine ⟨?_, ?_⟩
      · show tailOk (splitSlash rest) = true
        exact htail
      · intro hhead
        exact absurd hhead (by simp [headIsSlash, hc])
    · rw [if_neg hc]
      cases h : splitSlash rest with
      | nil => exact absurd h (splitSlash_ne_nil rest)
      | cons s ss =>
        have htailss : tailOk ss = true := by
          have hi := ihr.1
          rw [h] at hi
          exact hi
        refine ⟨htailss, fun _ => ?_⟩
        rw [tailOk_cons]
        cases ss with
        | nil => simp
        | cons s2 ss2 => simp [htailss]

/-! ## Filtering dot segments preserves the shape invariant -/

theorem tailOk_filter :
    ∀ ss : List (List Char), tailOk ss = true →
      tailOk (ss.filter segOk) = true := by
  intro ss
  induction ss with
  | nil => intro _; rfl
  | cons s rest ih =>
    intro h
    rw [tailOk_cons] at h
    rw [List.filter_cons]
    rcases Bool.or_eq_true _ _ |>.mp h with h1 | h1
    · have : rest = [] := by simpa using h1
      subst this
      by_cases hs : segOk s = true
      · simp [hs, tailOk]
      · simp [Bool.not_eq_true _ |>.mp hs, tailOk]
    · rw [Bool.and_eq_true] at h1
      by_cases hs : segOk s = true
      · rw [if_pos hs, tailOk_cons]
        cases hfr : rest.filter segOk with
        | nil => simp
        | cons f fs =>
          rw [← hfr, ih h1.2, h1.1]
          simp
      · rw [if_neg hs]
        exact ih h1.2

theorem innerOk_filter_of_tailOk :
    ∀ ss : List (List Char), tailOk ss = true →
      innerOk (ss.filter segOk) = true := by
  intro ss
  induction ss with
  | nil => intro _; rfl
  | cons s rest ih =>
    intro h
    rw [tailOk_cons] at h
    rw [List.filter_cons]
    by_cases hs : segOk s = true
    · rw [if_pos hs]
      show tailOk (rest.filter segOk) = true
      rcases Bool.or_eq_true _ _ |>.mp h with h1 | h1
      · have : rest = [] := by simpa using h1
        subst this
        rfl
      · exact tailOk_filter rest (Bool.and_eq_true _ _ |>.mp h1).2
    · rw [if_neg hs]
      rcases Bool.or_eq_true _ _ |>.mp h with h1 | h1
      · have : rest = [] := by simpa using h1
        subst this
        rfl
      · exact ih (Bool.and_eq_true _ _ |>.mp h1).2

theorem innerOk_filter :
    ∀ ss : List (List Char), innerOk ss = true →
      innerOk (ss.filter segOk) = true := by
  intro ss
  cases ss with
  | nil => intro _; rfl
  | cons s rest =>
    intro h
    have htail : tailOk rest = true := h
    rw [List.filter_cons]
    by_cases hs : segOk s = true
    · rw [if_pos hs]
      show tailOk (rest.filter segOk) = true
      exact tailOk_filter rest htail
    · rw [if_neg hs]
      exact innerOk_filter_of_tailOk rest htail

/-! ## Rejoining well-shaped slash-free segments yields no double slash -/

theorem noDD_of_noSlash {s : List Char} (h : '/' ∉ s) : noDD s = true := by
  induction s with
  | nil => rfl
  | cons c rest ih =>
    rw [noDD_cons]
    have hc : c ≠ '/' := fun he => h (he ▸ List.mem_cons_self _ _)
    rw [ih (fun hm => h (List.mem_cons_of_mem _ hm))]
    simp [hc]

theorem headIsSlash_eq_false_of_noSlash {s : List Char} (h : '/' ∉ s) :
    headIsSlash s = false := by
  cases s with
  | nil => rfl
  | cons c rest =>
    have hc : c ≠ '/' := fun he => h (he ▸ List.mem_cons_self _ _)
    simp [headIsSlash, hc]

theorem noDD_append {s0 t : List Char} (h : '/' ∉ s0)
    (ht : noDD t = true) : noDD (s0 ++ t) = true := by
  induction s0 with
  | nil => simpa using ht
  | cons c rest ih =>
    rw [List.cons_append, noDD_cons]
    have hc : c ≠ '/' := fun he => h (he ▸ List.mem_cons_self _ _)
    rw [ih (fun hm => h (List.mem_cons_of_mem _ hm))]
    simp [hc]

theorem headIsSlash_joinSlash {s1 : List Char} {rest : List (List Char)}
    (h1 : '/' ∉ s1) (hne : rest ≠ [] → s1 ≠ []) :
    headIsSlash (joinSlash (s1 :: rest)) = false := by
  cases rest with
  | nil => exact headIsSlash_eq_false_of_noSlash h1
  | cons s2 ss2 =>
    rw [joinSlash_cons_cons]
    cases s1 with
    | nil => exact absurd rfl (hne (by simp))
    | cons c cs =>
      have hc : c ≠ '/' := fun he => h1 (he ▸ List.mem_cons_self _ _)
      simp [headIsSlash, hc]

theorem noDD_joinSlash :
    ∀ ss : List (List Char), (∀ s ∈ ss, '/' ∉ s) → innerOk ss = true →
      noDD (joinSlash ss) = true := by
  intro ss
  induction ss with
  | nil => intro _ _; rfl
  | cons s rest ih =>
    intro hns hinner
    cases rest with
    | nil => exact noDD_of_noSlash (hns s (List.mem_cons_self _ _))
    | cons s2 ss2 =>
      rw [joinSlash_cons_cons]
      have htail : tailOk (s2 :: ss2) = true := hinner
      apply noDD_append (hns s (List.mem_cons_self _ _))
      rw [noDD_cons]
      have hs2ne : ss2 ≠ [] → s2 ≠ [] := by
        intro hss2 hs2
        rw [tailOk_cons] at htail
        rcases Bool.or_eq_true _ _ |>.mp htail with h1 | h1
        · exact hss2 (by simpa using h1)
        · rw [Bool.and_eq_true] at h1
          rw [hs2] at h1
          exact absurd h1.1 (by simp)
      have hhead : headIsSlash (joinSlash (s2 :: ss2)) = false :=
        headIsSlash_joinSlash (hns s2 (List.mem_cons_of_mem _ (List.mem_cons_self _ _)))
          hs2ne
      have hinner2 : innerOk (s2 :: ss2) = true := by
        show tailOk ss2 = true
        rw [tailOk_cons] at htail
        rcases Bool.or_eq_true _ _ |>.mp htail with h1 | h1
        · have : ss2 = [] := by simpa using h1
          subst this
          rfl
        · exact (Bool.and_eq_true _ _ |>.mp h1).2
      rw [hhead, ih (fun x hx => hns x (List.mem_cons_of_mem _ hx)) hinner2]
      simp

/-! ## Fixed points of the sanitizer -/

/-- Every character of the list is in the whitelist class. -/
def allAllowed (l : List Char) : Prop :=
  ∀ c ∈ l, isAllowedChar c = true

/-- The fixed-point characterization: only whitelisted characters, no
double slash, no dot or double-dot segment. -/
def sanFixed (l : List Char) : Prop :=
  allAllowed l ∧ noDD l = true ∧ (splitSlash l).all segOk = true

theorem stripControl_eq_self {l : List Char} (h : allAllowed l) :
    stripControl l = l :=
  List.filter_eq_self.mpr fun c hc => by
    simp [not_controlOrHigh_of_allowed (h c hc)]

theorem stripPctControl_eq_self :
    ∀ {l : List Char}, '%' ∉ l → stripPctControl l = l := by
  intro l
  induction l with
  | nil => intro _; rfl
  | cons c rest ih =>
    intro h
    have hc : c ≠ '%' := fun he => h (he ▸ List.mem_cons_self _ _)
    have hrest : '%' ∉ rest := fun hm => h (List.mem_cons_of_mem _ hm)
    match rest, ih, hrest with
    | [], _, _ => rfl
    | [d], _, _ => rfl
    | d1 :: d2 :: r, ih, hrest =>
      rw [stripPctControl, if_neg (by simp [hc]), ih hrest]

theorem keepAllowed_eq_self {l : List Char} (h : allAllowed l) :
    keepAllowed l = l :=
  List.filter_eq_self.mpr fun c hc => h c hc

theorem dropDotSegments_eq_self {l : List Char}
    (h : (splitSlash l).all segOk = true) : dropDotSegments l = l := by
  rw [dropDotSegments,
    List.filter_eq_self.mpr (fun s hs => List.all_eq_true.mp h s hs),
    joinSlash_splitSlash]

theorem sanitizeList_eq_self {l : List Char} (h : sanFixed l) :
    sanitizeList l = l := by
  obtain ⟨ha, hdd, hseg⟩ := h
  rw [sanitizeList, stripControl_eq_self ha,
    stripPctControl_eq_self (fun hm => ne_pct_of_allowed (ha _ hm) rfl),
    collapseSlashes_eq_self hdd, dropDotSegments_eq_self hseg,
    keepAllowed_eq_self ha]

theorem sanFixed_sanitizeList {l : List Char} (ha : allAllowed l) :
    sanFixed (sanitizeList l) := by
  rw [sanitizeList, stripControl_eq_self ha,
    stripPctControl_eq_self (fun hm => ne_pct_of_allowed (ha _ hm) rfl)]
  have hddc : noDD (collapseSlashes l) = true := noDD_collapseAux l false
  have hmemc : allAllowed (collapseSlashes l) :=
    fun x hx => ha x (mem_collapseAux hx)
  have hnsfss : ∀ s ∈ (splitSlash (collapseSlashes l)).filter segOk, '/' ∉ s :=
    fun s hs => noSlash_of_mem_splitSlash (List.mem_of_mem_filter hs)
  have hmemd : allAllowed (dropDotSegments (collapseSlashes l)) := by
    intro x hx
    rw [dropDotSegments] at hx
    rcases mem_joinSlash hx with ⟨s, hs, hxs⟩ | rfl
    · exact hmemc x (mem_splitSlash (List.mem_of_mem_filter hs) hxs)
    · decide
  rw [keepAllowed_eq_self hmemd]
  refine ⟨hmemd, ?_, ?_⟩
  · rw [dropDotSegments]
    exact noDD_joinSlash _ hnsfss
      (innerOk_filter _ (splitSlash_shape (collapseSlashes l) hddc).1)
  · rw [dropDotSegments]
    cases hf : (splitSlash (collapseSlashes l)).filter segOk with
    | nil => decide
    | cons f fs =>
      rw [← hf, splitSlash_joinSlash _ (by rw [hf]; simp) hnsfss]
      exact List.all_eq_true.mpr
        (fun s hs => List.of_mem_filter hs)

theorem allAllowed_sanitizeList (l : List Char) :
    allAllowed (sanitizeList l) :=
  fun _ hc => sanitizeList_allowed hc

/-- Two applications of the sanitizer reach a fixed point. -/
theorem sanitizeList_third_pass (l : List Char) :
    sanitizeList (sanitizeList (sanitizeList l)) =
      sanitizeList (sanitizeList l) :=
  sanitizeList_eq_self (sanFixed_sanitizeList (allAllowed_sanitizeList l))

/-! ## Usage limiter

The KV namespace OA_USAGE is modelled as a map from keys to stored
records; timestamps are integers in milliseconds, usage counts are
natural numbers of bytes.  trackFingerprintUsage performs one get and
one put and returns the updated ledger; checkFingerprintUsage performs
only a get, and is written in explicit state-passing style returning
the ledger it leaves behind, so that its frame condition is a stated
theorem rather than a typing convention.
-/

/-- MAX_USAGE from the source: 5 * 1024 * 1024 * 1024 bytes. -/
def MAX_USAGE : Nat := 5 * 1024 * 1024 * 1024

/-- USAGE_WINDOW from the source: 24 * 60 * 60 * 1000 milliseconds. -/
def USAGE_WINDOW : Nat := 24 * 60 * 60 * 1000

/-- A stored ledger record: usage bytes and the window timestamp. -/
structure UsageData where
  usage : Nat
  timestamp : Int
deriving DecidableEq

/-- The usage ledger: KV state of the OA_USAGE namespace. -/
def KVState : Type := String → Option UsageData

/-- The ledger key for a fingerprint. -/
def fingerprintKeyOf (fp : String) : String :=
  "fp:" ++ fp

/-- trackFingerprintUsage: read the record, accumulate when the window
has not elapsed, reset otherwise, and write back unconditionally with
the current time. -/
def trackFingerprintUsage (kv : KVState) (fp : String) (now : Int)
    (bytes : Nat) : KVState :=
  let key := fingerprintKeyOf fp
  let newUsage : Nat :=
    match kv key with
    | some u => if now - u.timestamp ≤ (USAGE_WINDOW : Int)
        then bytes + u.usage else bytes
    | none => bytes
  fun k => if k = key then some { usage := newUsage, timestamp := now }
    else kv k

/-- checkFingerprintUsage: read the record; absent or expired records
are not exceeded; otherwise compare usage to the limit.  The second
component is the ledger as left by the call. -/
def checkFingerprintUsage (kv : KVState) (fp : String) (now : Int) :
    Bool × KVState :=
  let key := fingerprintKeyOf fp
  match kv key with
  | none => (false, kv)
  | some u =>
    if now - u.timestamp > (USAGE_WINDOW : Int) then (false, kv)
    else (decide (u.usage ≥ MAX_USAGE), kv)

/-! ## Request pipeline data model

The handler of src/src/index.ts is embedded as a pure function from an
incoming request plus the state of the external collaborators (edge
cache, R2 store, usage ledger, origin store) to an HTTP response
together with a record of the effects the handler performed (cache put
scheduled, R2 head key, R2 get issued, origin fetch issued, ledger
consulted, usage tracked, R2 put scheduled).
-/

/-- The custom-metadata and response-header key carrying redirect
targets. -/
def amzRedirectLocationHeaderName : String :=
  "x-amz-website-redirect-location"

/-- A per-host bucket configuration entry. -/
structure BucketConfig where
  s3_bucket : String
  block_root : Bool
  index_file : Option String
  cache_control : Option String
deriving DecidableEq

/-- The static host table of the source. Absent JS fields are falsy,
hence block_root false and the optional fields none. -/
def hostToBucketMapping (host : String) : Option BucketConfig :=
  if host = "v2.openaddresses.io" then
    some { s3_bucket := "v2.openaddresses.io", block_root := true,
           index_file := none, cache_control := none }
  else if host = "results.openaddresses.io" then
    some { s3_bucket := "results.openaddresses.io", block_root := false,
           index_file := some ("index.html"),
           cache_control := some ("public, max-age=604800, immutable") }
  else if host = "data.openaddresses.io" then
    some { s3_bucket := "data.openaddresses.io", block_root := true,
           index_file := none, cache_control := none }
  else none

/-- An incoming request: method, host, path, and the headers and TLS
data the handler consults.  Header values model the raw header: absent
is none, and the empty string is falsy in the source conditions. -/
structure Req where
  method : String
  hostName : String
  pathname : String
  ip : Option String
  referer : Option String
  tlsClientExtensionsSha1 : Option String
  asn : Option Nat
deriving DecidableEq

/-- JS falsiness of an optional header or TLS string value. -/
def isFalsyHeader : Option String → Bool
  | none => true
  | some s => s = ""

/-- The slice(1) of the source: drop the first code unit of the path. -/
def pathAfterSlash (s : String) : String :=
  ⟨s.data.drop 1⟩

/-- Code-unit level prefix test (the startsWith method). -/
def listStartsWith : List Char → List Char → Bool
  | [], _ => true
  | _ :: _, [] => false
  | a :: as, b :: bs => a = b && listStartsWith as bs

/-- The startsWith method of strings. -/
def strStartsWith (s pre : String) : Bool :=
  listStartsWith pre.data s.data

/-- The endsWith method for the single character slash. -/
def endsWithSlash (s : String) : Bool :=
  match s.data.getLast? with
  | some c => c = '/'
  | none => false

/-- The TLS-extension component of the fingerprint, with the literal
unknown fallback for a missing or falsy value. -/
def tlsPart : Option String → String
  | none => "unknown"
  | some s => if s = "" then ("unknown") else s

/-- The ASN component of the fingerprint; the number zero is falsy in
JS and also falls back to unknown. -/
def asnPart : Option Nat → String
  | none => "unknown"
  | some n => if n = 0 then ("unknown") else toString n

/-- getClientFingerprint from the source: hash and ASN joined by a
colon. -/
def getClientFingerprint (rq : Req) : String :=
  tlsPart rq.tlsClientExtensionsSha1 ++ ":" ++ asnPart rq.asn

/-- An object stored in R2: its custom metadata, its content (http)
metadata, its entity tag and its body. -/
structure StoredObject where
  customMetadata : List (String × String)
  httpMetadata : List (String × String)
  httpEtag : String
  body : String
deriving DecidableEq

/-- A response from the origin S3 fetch. -/
structure OriginResp where
  status : Nat
  headers : List (String × String)
  body : String
deriving DecidableEq

/-- First header value for a key (the headers get method; keys are
compared verbatim here). -/
def lookupHeader (hs : List (String × String)) (k : String) :
    Option String :=
  match hs.find? (fun p => p.fst = k) with
  | some p => some p.snd
  | none => none

/-- Header or metadata lookup combined with the JS truthiness test the
source applies to the looked-up value: the empty string behaves as
absent. -/
def truthyLookup (hs : List (String × String)) (k : String) :
    Option String :=
  match lookupHeader hs k with
  | some s => if s = "" then none else some s
  | none => none

/-- The headers set method: overwrite any existing value for the key. -/
def setHeader (hs : List (String × String)) (k v : String) :
    List (String × String) :=
  (k, v) :: hs.filter (fun p => p.fst ≠ k)

/-- The HTTP response the handler produces. -/
structure HttpResp where
  status : Nat
  body : Option String
  location : Option String
  headers : List (String × String)
deriving DecidableEq

/-- The effects the handler performed while producing the response. -/
structure Effects where
  cachePut : Bool
  headKey : Option String
  r2GetCalled : Bool
  originFetched : Bool
  ledgerChecked : Bool
  tracked : Bool
  r2PutScheduled : Bool
deriving DecidableEq

/-- Response together with effect record. -/
structure HandlerResult where
  resp : HttpResp
  eff : Effects
deriving DecidableEq

/-- No effects at all (used for the early middleware reply and the
cache hit, which replays the cached response verbatim). -/
def noEffects : Effects :=
  { cachePut := false, headKey := none, r2GetCalled := false,
    originFetched := false, ledgerChecked := false, tracked := false,
    r2PutScheduled := false }

/-- An error response before the R2 head: a plain body, scheduled into
the edge cache. -/
def errorResult (st : Nat) (b : String) : HandlerResult :=
  { resp := { status := st, body := some b, location := none, headers := [] },
    eff := { noEffects with cachePut := true } }

/-- Outcome of the request-only resolution phase (sanitization,
validation, referer policy, host routing, root-key policy, method
check), in source order. -/
inductive ResolveResult where
  | err (r : HandlerResult)
  | ok (config : BucketConfig) (s3objectName : String) (r2objectName : String)
deriving DecidableEq

/-- The request-only prefix of the handler of src/src/index.ts, in
source order: sanitize the path, re-test the block patterns on the
sanitized name, apply the referer policy for the runs prefix on the
data host, route the host, apply the root-key policy and the index
file, build the storage key, reject the empty key and non-GET
methods. -/
def resolveRequest (rq : Req) : ResolveResult :=
  let s0 := sanitizePath (pathAfterSlash rq.pathname)
  if blockedPattern s0 then ResolveResult.err (errorResult 400 ("Invalid request"))
  else if rq.hostName = "data.openaddresses.io" && strStartsWith s0 ("runs/")
      && isFalsyHeader rq.referer then
    ResolveResult.err (errorResult 403 ("Invalid request"))
  else
    match hostToBucketMapping rq.hostName with
    | none => ResolveResult.err (errorResult 404 ("Unknown host"))
    | some config =>
      if (s0 = "" || endsWithSlash s0) && config.block_root then
        ResolveResult.err (errorResult 400 ("Bad Request"))
      else
        let s1 :=
          if s0 = "" || endsWithSlash s0 then
            match config.index_file with
            | some f => if s0 = "" || endsWithSlash s0 then s0 ++ f else s0
            | none => s0
          else s0
        let r2objectName := config.s3_bucket ++ "/" ++ s1
        if r2objectName = "" then
          ResolveResult.err (errorResult 400 ("Bad Request"))
        else if rq.method ≠ "GET" then
          ResolveResult.err (errorResult 405 ("Method Not Allowed"))
        else ResolveResult.ok config s1 r2objectName

/-- The state of the external collaborators seen by one request. -/
structure World where
  cacheMatch : Option HttpResp
  r2 : String → Option StoredObject
  kv : KVState
  now : Int
  origin : OriginResp

/-- The store-facing phase of the handler of src/src/index.ts: R2 head,
and on a miss the limiter check, the origin fetch, usage tracking, the
scheduled write-back and the response; on a hit the redirect metadata
or the R2 get with metadata, cache-control overlay and entity tag. -/
def serveResolved (w : World) (rq : Req) (config : BucketConfig)
    (s3objectName r2objectName : String) : HandlerResult :=
  match w.r2 r2objectName with
  | none =>
    if (checkFingerprintUsage w.kv (getClientFingerprint rq) w.now).fst then
      { resp := { status := 429, body := some ("Download limit exceeded"),
                  location := none, headers := [] },
        eff := { cachePut := false, headKey := some r2objectName,
                 r2GetCalled := false, originFetched := false,
                 ledgerChecked := true, tracked := false,
                 r2PutScheduled := false } }
    else
      let s3Object := w.origin
      if s3Object.status = 404 then
        { resp := { status := 404,
                    body := some ("Object " ++ s3objectName ++ " not found"),
                    location := none, headers := [] },
          eff := { cachePut := true, headKey := some r2objectName,
                   r2GetCalled := false, originFetched := true,
                   ledgerChecked := true, tracked := false,
                   r2PutScheduled := false } }
      else
        let redirectTo := truthyLookup s3Object.headers amzRedirectLocationHeaderName
        let hasCL := (lookupHeader s3Object.headers ("content-length")).isSome
        match redirectTo with
        | some t =>
          { resp := { status := 302, body := none, location := some t,
                      headers := [] },
            eff := { cachePut := true, headKey := some r2objectName,
                     r2GetCalled := false, originFetched := true,
                     ledgerChecked := true, tracked := hasCL,
                     r2PutScheduled := true } }
        | none =>
          let hdrs :=
            match config.cache_control with
            | some cc => setHeader s3Object.headers ("cache-control") cc
            | none => s3Object.headers
          { resp := { status := s3Object.status, body := some s3Object.body,
                      location := none, headers := hdrs },
            eff := { cachePut := true, headKey := some r2objectName,
                     r2GetCalled := false, originFetched := true,
                     ledgerChecked := true, tracked := hasCL,
                     r2PutScheduled := true } }
  | some obj =>
    match truthyLookup obj.customMetadata amzRedirectLocationHeaderName with
    | some t =>
      { resp := { status := 302, body := none, location := some t,
                  headers := [] },
        eff := { cachePut := true, headKey := some r2objectName,
                 r2GetCalled := false, originFetched := false,
                 ledgerChecked := false, tracked := false,
                 r2PutScheduled := false } }
    | none =>
      let h1 := obj.httpMetadata
      let h2 :=
        match config.cache_control with
        | some cc => setHeader h1 ("cache-control") cc
        | none => h1
      let h3 := setHeader h2 ("etag") obj.httpEtag
      { resp := { status := 200, body := some obj.body, location := none,
                  headers := h3 },
        eff := { cachePut := true, headKey := some r2objectName,
                 r2GetCalled := true, originFetched := false,
                 ledgerChecked := false, tracked := false,
                 r2PutScheduled := false } }

/-- The full GET handler of src/src/index.ts: the client-address
middleware, the edge-cache match, the resolution phase, and the
store-facing phase. -/
def appGetHandler (w : World) (rq : Req) : HandlerResult :=
  if isFalsyHeader rq.ip then
    { resp := { status := 400, body := some ("IP address not found"),
                location := none, headers := [] },
      eff := noEffects }
  else
    match w.cacheMatch with
    | some r => { resp := r, eff := noEffects }
    | none =>
      match resolveRequest rq with
      | ResolveResult.err e => e
      | ResolveResult.ok config s key => serveResolved w rq config s key

/-! ## The snapshot with the origin-fetch timeout

The second pipeline snapshot (src/unnamed/part_000) differs from
src/src/index.ts in three ways: it has no referer policy, its origin
fetch is wrapped in an abort controller armed at 20000 milliseconds so
that an origin that has not answered by then yields a 504 before any
tracking or write-back, and an R2 hit without redirect metadata is
answered with a 302 to the public R2 URL instead of streaming the
body.  It also tracks usage only for a positive parsed content
length.
-/

/-- The abort timer of the snapshot: 20000 milliseconds. -/
def S3_FETCH_TIMEOUT_MS : Nat := 20000

/-- parseInt base 10 of the leading digits; a string with no leading
digit parses to NaN in JS, which compares false against zero exactly
as the zero returned here does. -/
def parseIntDec (s : String) : Nat :=
  (s.data.takeWhile (fun c => 48 ≤ c.toNat && c.toNat ≤ 57)).foldl
    (fun a c => a * 10 + (c.toNat - 48)) 0

/-- The request-only prefix of the snapshot handler: as resolveRequest
but with no referer policy. -/
def resolveRequestV2 (rq : Req) : ResolveResult :=
  let s0 := sanitizePath (pathAfterSlash rq.pathname)
  if blockedPattern s0 then ResolveResult.err (errorResult 400 ("Invalid request"))
  else
    match hostToBucketMapping rq.hostName with
    | none => ResolveResult.err (errorResult 404 ("Unknown host"))
    | some config =>
      if (s0 = "" || endsWithSlash s0) && config.block_root then
        ResolveResult.err (errorResult 400 ("Bad Request"))
      else
        let s1 :=
          if s0 = "" || endsWithSlash s0 then
            match config.index_file with
            | some f => if s0 = "" || endsWithSlash s0 then s0 ++ f else s0
            | none => s0
          else s0
        let r2objectName := config.s3_bucket ++ "/" ++ s1
        if r2objectName = "" then
          ResolveResult.err (errorResult 400 ("Bad Request"))
        else if rq.method ≠ "GET" then
          ResolveResult.err (errorResult 405 ("Method Not Allowed"))
        else ResolveResult.ok config s1 r2objectName

/-- The collaborators of the snapshot handler: additionally the delay
in milliseconds after which the origin answers, and the configured
public R2 URL prefix. -/
structure WorldV2 where
  cacheMatch : Option HttpResp
  r2 : String → Option StoredObject
  kv : KVState
  now : Int
  originDelayMs : Nat
  origin : OriginResp
  r2ObjectPrefixEnv : Option String

/-- The store-facing phase of the snapshot handler. -/
def serveResolvedV2 (w : WorldV2) (rq : Req) (config : BucketConfig)
    (s3objectName r2objectName : String) : HandlerResult :=
  match w.r2 r2objectName with
  | none =>
    if (checkFingerprintUsage w.kv (getClientFingerprint rq) w.now).fst then
      { resp := { status := 429, body := some ("Download limit exceeded"),
                  location := none, headers := [] },
        eff := { cachePut := false, headKey := some r2objectName,
                 r2GetCalled := false, originFetched := false,
                 ledgerChecked := true, tracked := false,
                 r2PutScheduled := false } }
    else if S3_FETCH_TIMEOUT_MS < w.originDelayMs then
      { resp := { status := 504,
                  body := some ("Upstream S3 fetch timed out after 20s"),
                  location := none, headers := [] },
        eff := { cachePut := true, headKey := some r2objectName,
                 r2GetCalled := false, originFetched := true,
                 ledgerChecked := true, tracked := false,
                 r2PutScheduled := false } }
    else
      let s3Object := w.origin
      if s3Object.status = 404 then
        { resp := { status := 404,
                    body := some ("Object " ++ s3objectName ++ " not found"),
                    location := none, headers := [] },
          eff := { cachePut := true, headKey := some r2objectName,
                   r2GetCalled := false, originFetched := true,
                   ledgerChecked := true, tracked := false,
                   r2PutScheduled := false } }
      else
        let redirectTo := truthyLookup s3Object.headers amzRedirectLocationHeaderName
        let contentLength :=
          parseIntDec ((lookupHeader s3Object.headers ("content-length")).getD ("0"))
        let didTrack := decide (0 < contentLength)
        match redirectTo with
        | some t =>
          { resp := { status := 302, body := none, location := some t,
                      headers := [] },
            eff := { cachePut := true, headKey := some r2objectName,
                     r2GetCalled := false, originFetched := true,
                     ledgerChecked := true, tracked := didTrack,
                     r2PutScheduled := true } }
        | none =>
          let hdrs :=
            match config.cache_control with
            | some cc => setHeader s3Object.headers ("cache-control") cc
            | none => s3Object.headers
          { resp := { status := s3Object.status, body := some s3Object.body,
                      location := none, headers := hdrs },
            eff := { cachePut := true, headKey := some r2objectName,
                     r2GetCalled := false, originFetched := true,
                     ledgerChecked := true, tracked := didTrack,
                     r2PutScheduled := true } }
  | some obj =>
    match truthyLookup obj.customMetadata amzRedirectLocationHeaderName with
    | some t =>
      { resp := { status := 302, body := none, location := some t,
                  headers := [] },
        eff := { cachePut := true, headKey := some r2objectName,
                 r2GetCalled := false, originFetched := false,
                 ledgerChecked := false, tracked := false,
                 r2PutScheduled := false } }
    | none =>
      let dom :=
        match w.r2ObjectPrefixEnv with
        | some s => if s = "" then ("https://r2.openaddresses.io") else s
        | none => "https://r2.openaddresses.io"
      { resp := { status := 302, body := none,
                  location := some (dom ++ "/" ++ r2objectName),
                  headers := [] },
        eff := { cachePut := true, headKey := some r2objectName,
                 r2GetCalled := false, originFetched := false,
                 ledgerChecked := false, tracked := false,
                 r2PutScheduled := false } }

/-- The full GET handler of the snapshot src/unnamed/part_000. -/
def appGetHandlerV2 (w : WorldV2) (rq : Req) : HandlerResult :=
  if isFalsyHeader rq.ip then
    { resp := { status := 400, body := some ("IP address not found"),
                location := none, headers := [] },
      eff := noEffects }
  else
    match w.cacheMatch with
    | some r => { resp := r, eff := noEffects }
    | none =>
      match resolveRequestV2 rq with
      | ResolveResult.err e => e
      | ResolveResult.ok config s key => serveResolvedV2 w rq config s key

/-! ## Header map lemmas -/

theorem find?_filter_ne (hs : List (String × String)) (k kq : String)
    (h : kq ≠ k) :
    (hs.filter (fun p => p.fst ≠ k)).find? (fun p => p.fst = kq) =
      hs.find? (fun p => p.fst = kq) := by
  induction hs with
  | nil => rfl
  | cons p rest ih =>
    rw [List.filter_cons]
    by_cases hp : p.fst = k
    · rw [if_neg (by simp [hp]), List.find?_cons_of_neg _ (by simp [hp, Ne.symm h]), ih]
    · rw [if_pos (by simp [hp])]
      by_cases hq : p.fst = kq
      · rw [List.find?_cons_of_pos _ (by simp [hq]),
          List.find?_cons_of_pos _ (by simp [hq])]
      · rw [List.find?_cons_of_neg _ (by simp [hq]),
          List.find?_cons_of_neg _ (by simp [hq]), ih]

theorem lookupHeader_setHeader_same (hs : List (String × String))
    (k v : String) : lookupHeader (setHeader hs k v) k = some v := by
  rw [setHeader, lookupHeader, List.find?_cons_of_pos _ (by simp)]

theorem lookupHeader_setHeader_other (hs : List (String × String))
    (k v kq : String) (h : kq ≠ k) :
    lookupHeader (setHeader hs k v) kq = lookupHeader hs kq := by
  rw [setHeader, lookupHeader, List.find?_cons_of_neg _ (by simp [Ne.symm h]),
    find?_filter_ne hs k kq h, lookupHeader]

/-! ## Claim C2 -/

/-- Claim C2, counterexample: the sanitizer output can contain a
double-dot segment and a doubled slash, both created by the final
whitelist pass deleting characters from an already-split segment. -/
theorem c2_counterexample :
    sanitizePath ("a/.%./b") = "a/../b" ∧
      (splitSlash (sanitizePath ("a/.%./b")).data).contains ['.', '.'] = true ∧
      sanitizePath ("a/:/b") = "a//b" ∧
      noDD (sanitizePath ("a/:/b")).data = false := by
  decide

/-- Claim C2 (amended): every character of the sanitizer output lies in
the whitelist a-zA-Z0-9_-./, so the output never contains control
characters (x00-x1F, x7F), raw non-ASCII code units, or a percent sign
(hence no percent-encoded control form).  The no-dot-segment and
no-doubled-slash parts of the original claim are dropped: the final
whitelist pass can create both. -/
theorem c2_output_whitelisted (p : String) :
    (sanitizePath p).data.all
      (fun c => isAllowedChar c && !(isControlOrHigh c) && (c != '%')) = true := by
  rw [List.all_eq_true]
  intro c hc
  have h := sanitizePath_allowed hc
  have h2 := not_controlOrHigh_of_allowed h
  have h3 := ne_pct_of_allowed h
  simp [h, h2, h3]

/-! ## Claim C9 -/

/-- Claim C9, counterexample: sanitizePath is not idempotent; on the
input a/:/b one pass gives a//b and a second pass gives a/b. -/
theorem c9_counterexample :
    (sanitizePath (sanitizePath ("a/:/b")) == sanitizePath ("a/:/b")) = false ∧
      sanitizePath ("a/:/b") = "a//b" ∧
      sanitizePath (sanitizePath ("a/:/b")) = "a/b" := by
  decide

/-- Claim C9 (amended): sanitizePath is not idempotent, but two passes
reach a fixed point: a third application changes nothing. -/
theorem c9_two_pass_fixed_point (p : String) :
    sanitizePath (sanitizePath (sanitizePath p)) =
      sanitizePath (sanitizePath p) :=
  congrArg String.mk (sanitizeList_third_pass p.data)

/-! ## Claim C1 -/

def rqC1 : Req :=
  { method := "GET", hostName := "v2.openaddresses.io",
    pathname := "/%00abc", ip := some ("1.2.3.4"), referer := none,
    tlsClientExtensionsSha1 := some ("ab"), asn := some 13335 }

def objC1 : StoredObject :=
  { customMetadata := [], httpMetadata := [], httpEtag := "etag1",
    body := "object-contents" }

def wC1 : World :=
  { cacheMatch := none,
    r2 := fun k => if k = "v2.openaddresses.io/abc" then some objC1 else none,
    kv := fun _ => none, now := 0,
    origin := { status := 500, headers := [], body := "" } }

/-- Claim C1 (code bug): a raw path containing a percent-encoded
control byte is not rejected with 400.  The handler validates the
already-sanitized name, which provably never matches the block
patterns (blockedPattern_sanitizePath), so the input %00abc is
silently stripped to abc and the object under the stripped key is
served with 200. -/
theorem c1_control_input_served :
    blockedPattern ("%00abc") = true ∧
      sanitizePath ("%00abc") = "abc" ∧
      (appGetHandler wC1 rqC1).resp.status = 200 ∧
      (appGetHandler wC1 rqC1).resp.body = some ("object-contents") ∧
      (appGetHandler wC1 rqC1).eff.headKey = some ("v2.openaddresses.io/abc") := by
  decide

/-! ## Claim C7 -/

/-- Claim C7: tracking n bytes and immediately checking reports
exceeded whenever n reaches MAX_USAGE, for any prior ledger state; the
same track followed by a check after more than USAGE_WINDOW
milliseconds reports not exceeded.  The constants are 5 GiB and 24
hours in milliseconds. -/
theorem c7_usage_window_law (kv : KVState) (fp : String) (now later : Int)
    (n : Nat) (hn : MAX_USAGE ≤ n)
    (hlater : (USAGE_WINDOW : Int) < later - now) :
    (checkFingerprintUsage (trackFingerprintUsage kv fp now n) fp now).fst = true ∧
      (checkFingerprintUsage (trackFingerprintUsage kv fp now n) fp later).fst = false ∧
      MAX_USAGE = 5 * 1024 * 1024 * 1024 ∧
      USAGE_WINDOW = 24 * 60 * 60 * 1000 := by
  have hkey : trackFingerprintUsage kv fp now n (fingerprintKeyOf fp) =
      some ⟨(match kv (fingerprintKeyOf fp) with
             | some u =>
               if now - u.timestamp ≤ (USAGE_WINDOW : Int) then n + u.usage
               else n
             | none => n), now⟩ := by
    simp only [trackFingerprintUsage]
    rw [if_pos trivial]
  refine ⟨?_, ?_, rfl, rfl⟩
  · simp only [checkFingerprintUsage]
    rw [hkey]
    show (if now - now > (USAGE_WINDOW : Int) then (false, _) else _).fst = true
    rw [if_neg (by simp)]
    show decide _ = true
    rw [decide_eq_true_eq]
    cases kv (fingerprintKeyOf fp) with
    | none => exact hn
    | some u =>
      show (if now - u.timestamp ≤ (USAGE_WINDOW : Int) then n + u.usage else n) ≥ MAX_USAGE
      by_cases hw : now - u.timestamp ≤ (USAGE_WINDOW : Int)
      · rw [if_pos hw]
        omega
      · rw [if_neg hw]
        exact hn
  · simp only [checkFingerprintUsage]
    rw [hkey]
    show (if later - now > (USAGE_WINDOW : Int) then (false, _) else _).fst = false
    rw [if_pos (by omega)]

/-- Witness for claim C7 at a concrete ledger, fingerprint, clock and
byte count. -/
theorem c7_usage_window_law_witness :
    MAX_USAGE ≤ MAX_USAGE ∧ (USAGE_WINDOW : Int) < 86400001 - 0 ∧
      (checkFingerprintUsage
        (trackFingerprintUsage (fun _ => none) ("x") 0 MAX_USAGE) ("x") 0).fst = true ∧
      (checkFingerprintUsage
        (trackFingerprintUsage (fun _ => none) ("x") 0 MAX_USAGE) ("x") 86400001).fst = false := by
  have h := c7_usage_window_law (fun _ => none) ("x") 0 86400001 MAX_USAGE
    (le_refl _) (by decide)
  exact ⟨le_refl _, by decide, h.1, h.2.1⟩

/-! ## Claim C10 -/

/-- Claim C10: the check never writes to the ledger, for every ledger
state (present, absent or expired); and the write performed by track
touches only the key of the tracked fingerprint. -/
theorem c10_check_leaves_ledger (kv : KVState) (fp : String) (now : Int) :
    (checkFingerprintUsage kv fp now).snd = kv ∧
      (∀ bytes : Nat, ∀ k : String, k ≠ fingerprintKeyOf fp →
        trackFingerprintUsage kv fp now bytes k = kv k) := by
  constructor
  · simp only [checkFingerprintUsage]
    split
    · rfl
    · split <;> rfl
  · intro bytes k hk
    simp only [trackFingerprintUsage]
    rw [if_neg hk]

/-- Witness for claim C10 at a concrete ledger, fingerprint, time and
foreign key. -/
theorem c10_check_leaves_ledger_witness :
    (checkFingerprintUsage (fun _ => none) ("abc") 5).snd = (fun _ => none) ∧
      trackFingerprintUsage (fun _ => none) ("abc") 5 7 ("zzz") = none := by
  refine ⟨(c10_check_leaves_ledger (fun _ => none) ("abc") 5).1, ?_⟩
  exact (c10_check_leaves_ledger (fun _ => none) ("abc") 5).2 7 ("zzz") (by decide)

/-! ## Reduction helpers for the handler -/

/-- Every error of the resolution phase carries the standard error
effects; in particular the ledger is never consulted there. -/
theorem resolveRequest_err_eff {rq : Req} {e : HandlerResult}
    (h : resolveRequest rq = ResolveResult.err e) :
    e.eff.ledgerChecked = false := by
  simp only [resolveRequest] at h
  repeat' split at h
  all_goals first
    | (cases h; rfl)
    | (cases h)

/-- Reduce the handler to the store-facing phase under the standard
hypotheses. -/
theorem appGetHandler_eq_serve {w : World} {rq : Req}
    {config : BucketConfig} {s key : String}
    (hip : isFalsyHeader rq.ip = false) (hc : w.cacheMatch = none)
    (hres : resolveRequest rq = ResolveResult.ok config s key) :
    appGetHandler w rq = serveResolved w rq config s key := by
  simp only [appGetHandler]
  rw [if_neg (by simp [hip]), hc, hres]

/-- Reduce the handler to a resolution error under the standard
hypotheses. -/
theorem appGetHandler_eq_err {w : World} {rq : Req} {e : HandlerResult}
    (hip : isFalsyHeader rq.ip = false) (hc : w.cacheMatch = none)
    (hres : resolveRequest rq = ResolveResult.err e) :
    appGetHandler w rq = e := by
  simp only [appGetHandler]
  rw [if_neg (by simp [hip]), hc, hres]

/-! ## Claim C3 -/

/-- Claim C3: on an R2 head hit whose custom metadata carries a
(truthy) redirect-location value, the handler answers 302 to exactly
that stored target, with no body and no R2 get. -/
theorem c3_redirect_on_hit (w : World) (rq : Req) (config : BucketConfig)
    (s key : String) (obj : StoredObject) (t : String)
    (hip : isFalsyHeader rq.ip = false) (hc : w.cacheMatch = none)
    (hres : resolveRequest rq = ResolveResult.ok config s key)
    (hhit : w.r2 key = some obj)
    (hmeta : truthyLookup obj.customMetadata amzRedirectLocationHeaderName = some t) :
    (appGetHandler w rq).resp.status = 302 ∧
      (appGetHandler w rq).resp.location = some t ∧
      (appGetHandler w rq).resp.body = none ∧
      (appGetHandler w rq).eff.r2GetCalled = false := by
  rw [appGetHandler_eq_serve hip hc hres]
  simp only [serveResolved, hhit, hmeta]
  exact ⟨trivial, trivial, trivial, trivial⟩

def rqC3 : Req :=
  { method := "GET", hostName := "v2.openaddresses.io",
    pathname := "/dir/obj.pbf", ip := some ("1.1.1.1"), referer := none,
    tlsClientExtensionsSha1 := none, asn := none }

def objC3 : StoredObject :=
  { customMetadata := [(amzRedirectLocationHeaderName, "https://caches.example/t.pbf")],
    httpMetadata := [], httpEtag := "e3", body := "unused-body" }

def wC3 : World :=
  { cacheMatch := none,
    r2 := fun k => if k = "v2.openaddresses.io/dir/obj.pbf" then some objC3 else none,
    kv := fun _ => none, now := 0,
    origin := { status := 200, headers := [], body := "" } }

def cfgV2 : BucketConfig :=
  { s3_bucket := "v2.openaddresses.io", block_root := true,
    index_file := none, cache_control := none }

def cfgResults : BucketConfig :=
  { s3_bucket := "results.openaddresses.io", block_root := false,
    index_file := some ("index.html"),
    cache_control := some ("public, max-age=604800, immutable") }

/-- Witness for claim C3 at a concrete request and store. -/
theorem c3_redirect_on_hit_witness :
    resolveRequest rqC3 =
        ResolveResult.ok cfgV2 ("dir/obj.pbf") ("v2.openaddresses.io/dir/obj.pbf") ∧
      (appGetHandler wC3 rqC3).resp.status = 302 ∧
      (appGetHandler wC3 rqC3).resp.location = some ("https://caches.example/t.pbf") ∧
      (appGetHandler wC3 rqC3).resp.body = none ∧
      (appGetHandler wC3 rqC3).eff.r2GetCalled = false := by
  have h := c3_redirect_on_hit wC3 rqC3 cfgV2 ("dir/obj.pbf")
    ("v2.openaddresses.io/dir/obj.pbf") objC3 ("https://caches.example/t.pbf")
    (by decide) rfl (by decide) (by decide) (by decide)
  exact ⟨by decide, h.1, h.2.1, h.2.2.1, h.2.2.2⟩

/-! ## Claim C4 -/

/-- Claim C4: on an R2 head hit with no (truthy) redirect metadata the
handler issues the R2 get and answers 200 with the stored body,
propagates the stored content metadata, sets the entity tag, and
overlays the configured cache-control when present. -/
theorem c4_hit_serves_body (w : World) (rq : Req) (config : BucketConfig)
    (s key : String) (obj : StoredObject)
    (hip : isFalsyHeader rq.ip = false) (hc : w.cacheMatch = none)
    (hres : resolveRequest rq = ResolveResult.ok config s key)
    (hhit : w.r2 key = some obj)
    (hmeta : truthyLookup obj.customMetadata amzRedirectLocationHeaderName = none) :
    (appGetHandler w rq).resp.status = 200 ∧
      (appGetHandler w rq).eff.r2GetCalled = true ∧
      (appGetHandler w rq).resp.body = some obj.body ∧
      lookupHeader (appGetHandler w rq).resp.headers ("etag") = some obj.httpEtag ∧
      (∀ cc, config.cache_control = some cc →
        lookupHeader (appGetHandler w rq).resp.headers ("cache-control") = some cc) ∧
      (∀ hk hv, hk ≠ "etag" → hk ≠ "cache-control" →
        lookupHeader obj.httpMetadata hk = some hv →
        lookupHeader (appGetHandler w rq).resp.headers hk = some hv) := by
  rw [appGetHandler_eq_serve hip hc hres]
  simp only [serveResolved, hhit, hmeta]
  refine ⟨trivial, trivial, trivial, lookupHeader_setHeader_same _ _ _, ?_, ?_⟩
  · intro cc hcc
    rw [hcc]
    rw [lookupHeader_setHeader_other _ _ _ _ (by decide)]
    exact lookupHeader_setHeader_same _ _ _
  · intro hk hv hk1 hk2 hlk
    rw [lookupHeader_setHeader_other _ _ _ _ hk1]
    cases hcc : config.cache_control with
    | none => exact hlk
    | some cc =>
      show lookupHeader (setHeader obj.httpMetadata ("cache-control") cc) hk = some hv
      rw [lookupHeader_setHeader_other _ _ _ _ hk2]
      exact hlk

def rqC4 : Req :=
  { method := "GET", hostName := "results.openaddresses.io",
    pathname := "/runs/77/state.txt", ip := some ("1.1.1.1"),
    referer := none, tlsClientExtensionsSha1 := none, asn := none }

def objC4 : StoredObject :=
  { customMetadata := [], httpMetadata := [("content-type", "text/plain")],
    httpEtag := "e4", body := "stored-body" }

def wC4 : World :=
  { cacheMatch := none,
    r2 := fun k => if k = "results.openaddresses.io/runs/77/state.txt"
      then some objC4 else none,
    kv := fun _ => none, now := 0,
    origin := { status := 200, headers := [], body := "" } }

/-- The concrete handler run of the C4 witness. -/
def w4res : HandlerResult := appGetHandler wC4 rqC4

/-- Witness for claim C4 at a concrete request and store. -/
theorem c4_hit_serves_body_witness :
    w4res.resp.status = 200 ∧ w4res.eff.r2GetCalled = true ∧
      w4res.resp.body = some ("stored-body") ∧
      lookupHeader w4res.resp.headers ("etag") = some ("e4") ∧
      lookupHeader w4res.resp.headers ("cache-control") =
        some ("public, max-age=604800, immutable") ∧
      lookupHeader w4res.resp.headers ("content-type") = some ("text/plain") := by
  have h := c4_hit_serves_body wC4 rqC4 cfgResults ("runs/77/state.txt")
    ("results.openaddresses.io/runs/77/state.txt") objC4
    (by decide) rfl (by decide) (by decide) (by decide)
  exact ⟨h.1, h.2.1, h.2.2.1, h.2.2.2.1,
    h.2.2.2.2.1 _ rfl,
    h.2.2.2.2.2 ("content-type") ("text/plain") (by decide) (by decide) (by decide)⟩

/-- A string with a nonempty left part is nonempty. -/
theorem append_ne_empty_left {a : String} (b : String) (h : a ≠ "") :
    a ++ b ≠ "" := by
  intro he
  apply h
  have hd : (a ++ b).data = [] := by rw [he]
  rw [String.data_append] at hd
  rcases List.append_eq_nil.mp hd with ⟨h1, _⟩
  exact String.ext h1

/-! ## Claim C5 -/

/-- Claim C5: the limiter check is consulted only after an R2 miss
(never on a resolution error or an R2 hit); when it reports exceeded
the handler answers 429 without fetching the origin, and that 429 is
not stored into the edge cache. -/
theorem c5_rate_limit_only_on_miss (w : World) (rq : Req)
    (hip : isFalsyHeader rq.ip = false) (hc : w.cacheMatch = none) :
    (∀ e, resolveRequest rq = ResolveResult.err e →
      (appGetHandler w rq).eff.ledgerChecked = false) ∧
    (∀ config s key, resolveRequest rq = ResolveResult.ok config s key →
      (w.r2 key).isSome = true →
      (appGetHandler w rq).eff.ledgerChecked = false) ∧
    (∀ config s key, resolveRequest rq = ResolveResult.ok config s key →
      w.r2 key = none →
      (checkFingerprintUsage w.kv (getClientFingerprint rq) w.now).fst = true →
      (appGetHandler w rq).resp.status = 429 ∧
        (appGetHandler w rq).eff.originFetched = false ∧
        (appGetHandler w rq).eff.cachePut = false) := by
  refine ⟨?_, ?_, ?_⟩
  · intro e he
    rw [appGetHandler_eq_err hip hc he]
    exact resolveRequest_err_eff he
  · intro config s key hres hsome
    obtain ⟨obj, hobj⟩ := Option.isSome_iff_exists.mp hsome
    rw [appGetHandler_eq_serve hip hc hres]
    simp only [serveResolved, hobj]
    split <;> rfl
  · intro config s key hres hmiss hex
    rw [appGetHandler_eq_serve hip hc hres]
    simp only [serveResolved, hmiss]
    rw [if_pos hex]
    exact ⟨rfl, rfl, rfl⟩

def rqC5 : Req :=
  { method := "GET", hostName := "v2.openaddresses.io",
    pathname := "/big.zip", ip := some ("1.1.1.1"), referer := none,
    tlsClientExtensionsSha1 := some ("ab"), asn := none }

def wC5 : World :=
  { cacheMatch := none,
    r2 := fun _ => none,
    kv := fun k => if k = "fp:ab:unknown"
      then some { usage := MAX_USAGE, timestamp := 0 } else none,
    now := 1000,
    origin := { status := 200, headers := [], body := "should-not-be-fetched" } }

/-- Witness for claim C5: a concrete request over the limit is answered
429 with no origin fetch and no cache put. -/
theorem c5_rate_limit_only_on_miss_witness :
    (checkFingerprintUsage wC5.kv (getClientFingerprint rqC5) wC5.now).fst = true ∧
      (appGetHandler wC5 rqC5).resp.status = 429 ∧
      (appGetHandler wC5 rqC5).eff.originFetched = false ∧
      (appGetHandler wC5 rqC5).eff.cachePut = false := by
  have h := (c5_rate_limit_only_on_miss wC5 rqC5 (by decide) rfl).2.2
    cfgV2 ("big.zip") ("v2.openaddresses.io/big.zip") (by decide) rfl (by decide)
  exact ⟨by decide, h.1, h.2.1, h.2.2⟩

/-! ## Claim C8 -/

/-- Claim C8: for a configured host and a sanitized key that is empty
or ends in a slash, block_root forces a 400 rejection regardless of
the index file; without block_root a configured index file is appended
to the key. The request must not be caught by the earlier referer
policy, which precedes the root-key policy in the pipeline. -/
theorem c8_root_key_policy (rq : Req) (config : BucketConfig)
    (hhost : hostToBucketMapping rq.hostName = some config)
    (hreferer : (rq.hostName = "data.openaddresses.io"
        && strStartsWith (sanitizePath (pathAfterSlash rq.pathname)) ("runs/")
        && isFalsyHeader rq.referer) = false)
    (hroot : sanitizePath (pathAfterSlash rq.pathname) = "" ∨
      endsWithSlash (sanitizePath (pathAfterSlash rq.pathname)) = true) :
    (config.block_root = true →
      resolveRequest rq = ResolveResult.err (errorResult 400 ("Bad Request"))) ∧
    (config.block_root = false → ∀ f, config.index_file = some f →
      rq.method = "GET" →
      resolveRequest rq = ResolveResult.ok config
        (sanitizePath (pathAfterSlash rq.pathname) ++ f)
        (config.s3_bucket ++ "/" ++ (sanitizePath (pathAfterSlash rq.pathname) ++ f))) := by
  have hval := blockedPattern_sanitizePath (pathAfterSlash rq.pathname)
  have hbucket : config.s3_bucket ≠ "" := by
    simp only [hostToBucketMapping] at hhost
    split_ifs at hhost <;> (cases hhost; decide)
  have hcond : (decide (sanitizePath (pathAfterSlash rq.pathname) = "") ||
      endsWithSlash (sanitizePath (pathAfterSlash rq.pathname))) = true := by
    rcases hroot with h | h <;> simp [h]
  constructor
  · intro hbr
    have hcondbr : ((decide (sanitizePath (pathAfterSlash rq.pathname) = "") ||
        endsWithSlash (sanitizePath (pathAfterSlash rq.pathname))) &&
          config.block_root) = true := by
      rw [hcond, hbr]
      rfl
    simp only [resolveRequest]
    rw [if_neg (by simp [hval]), if_neg (by simp [hreferer])]
    simp only [hhost]
    rw [if_pos hcondbr]
  · intro hbr f hf hm
    have hcondbr : ((decide (sanitizePath (pathAfterSlash rq.pathname) = "") ||
        endsWithSlash (sanitizePath (pathAfterSlash rq.pathname))) &&
          config.block_root) = false := by
      rw [hbr, Bool.and_false]
    simp only [resolveRequest]
    rw [if_neg (by simp [hval]), if_neg (by simp [hreferer])]
    simp only [hhost]
    rw [if_neg (by rw [hcondbr]; simp)]
    rw [if_pos hcond]
    simp only [hf]
    rw [if_pos hcond]
    rw [if_neg (append_ne_empty_left _ (append_ne_empty_left _ hbucket)),
      if_neg (by simp [hm])]

def rqC8a : Req :=
  { method := "GET", hostName := "v2.openaddresses.io", pathname := "/",
    ip := some ("1.1.1.1"), referer := none,
    tlsClientExtensionsSha1 := none, asn := none }

def rqC8b : Req :=
  { method := "GET", hostName := "results.openaddresses.io", pathname := "/",
    ip := some ("1.1.1.1"), referer := none,
    tlsClientExtensionsSha1 := none, asn := none }

/-- Witness for claim C8: the root path on a block_root host resolves
to 400, and on the host with an index file it resolves to the index
key. -/
theorem c8_root_key_policy_witness :
    hostToBucketMapping rqC8a.hostName = some cfgV2 ∧
      resolveRequest rqC8a = ResolveResult.err (errorResult 400 ("Bad Request")) ∧
      resolveRequest rqC8b = ResolveResult.ok cfgResults ("index.html")
        ("results.openaddresses.io/index.html") := by
  refine ⟨by decide, ?_, ?_⟩
  · exact (c8_root_key_policy rqC8a cfgV2 (by decide) (by decide)
      (Or.inl (by decide))).1 rfl
  · exact (c8_root_key_policy rqC8b cfgResults (by decide) (by decide)
      (Or.inl (by decide))).2 rfl ("index.html") rfl rfl

/-! ## Claim C6 -/

/-- Reduce the snapshot handler to its store-facing phase. -/
theorem appGetHandlerV2_eq_serve {w : WorldV2} {rq : Req}
    {config : BucketConfig} {s key : String}
    (hip : isFalsyHeader rq.ip = false) (hc : w.cacheMatch = none)
    (hres : resolveRequestV2 rq = ResolveResult.ok config s key) :
    appGetHandlerV2 w rq = serveResolvedV2 w rq config s key := by
  simp only [appGetHandlerV2]
  rw [if_neg (by simp [hip]), hc, hres]

/-- Claim C6: the origin fetch of the snapshot carries a 20000
millisecond abort timer; when the origin has not answered within it,
the handler returns 504 with the timeout message, distinct from 404,
and neither tracks usage nor schedules the R2 write-back. -/
theorem c6_origin_timeout (w : WorldV2) (rq : Req)
    (config : BucketConfig) (s key : String)
    (hip : isFalsyHeader rq.ip = false) (hc : w.cacheMatch = none)
    (hres : resolveRequestV2 rq = ResolveResult.ok config s key)
    (hmiss : w.r2 key = none)
    (hcheck : (checkFingerprintUsage w.kv (getClientFingerprint rq) w.now).fst = false)
    (htime : S3_FETCH_TIMEOUT_MS < w.originDelayMs) :
    (appGetHandlerV2 w rq).resp.status = 504 ∧
      (appGetHandlerV2 w rq).resp.body =
        some ("Upstream S3 fetch timed out after 20s") ∧
      (appGetHandlerV2 w rq).eff.r2PutScheduled = false ∧
      (appGetHandlerV2 w rq).eff.tracked = false ∧
      S3_FETCH_TIMEOUT_MS = 20000 := by
  rw [appGetHandlerV2_eq_serve hip hc hres]
  simp only [serveResolvedV2, hmiss]
  rw [if_neg (by simp [hcheck]), if_pos htime]
  exact ⟨rfl, rfl, rfl, rfl, rfl⟩

def rqC6 : Req :=
  { method := "GET", hostName := "v2.openaddresses.io",
    pathname := "/file.csv", ip := some ("1.1.1.1"), referer := none,
    tlsClientExtensionsSha1 := none, asn := none }

def wC6 : WorldV2 :=
  { cacheMatch := none, r2 := fun _ => none, kv := fun _ => none,
    now := 0, originDelayMs := 21000,
    origin := { status := 200, headers := [], body := "late-body" },
    r2ObjectPrefixEnv := none }

/-- Witness for claim C6: an origin that answers after 21 seconds gives
a 504 with no write-back. -/
theorem c6_origin_timeout_witness :
    S3_FETCH_TIMEOUT_MS < wC6.originDelayMs ∧
      (appGetHandlerV2 wC6 rqC6).resp.status = 504 ∧
      (appGetHandlerV2 wC6 rqC6).resp.body =
        some ("Upstream S3 fetch timed out after 20s") ∧
      (appGetHandlerV2 wC6 rqC6).eff.r2PutScheduled = false := by
  have h := c6_origin_timeout wC6 rqC6 cfgV2 ("file.csv")
    ("v2.openaddresses.io/file.csv") (by decide) rfl (by decide) rfl
    (by decide) (by decide)
  exact ⟨by decide, h.1, h.2.1, h.2.2.1⟩

end S3R2
